import Mathlib

/-!
Shallow embedding of the snapshot-diff core of the hkex-monitor repository
(`hkex_debenture_monitor.py`, together with the multi-subject driver loop of
`send_test_email.py`), and proofs or refutations of the specification's
claims about it.

Conventions of the embedding:

* a pandas `DataFrame` is a column-name list plus a row-major list of cell
  values; a cell value is `Option String`, where `none` models pandas `NaN`
  (every cell actually scraped from the site is `some`);
* Python exceptions are modelled with `Except PyErr`; `PyErr` additionally
  carries the specification's `SchemaMismatch` taxonomy entry so that the
  absence of any schema check in the code can be stated;
* `DataFrame.isin(values)` with a list argument is modelled after pandas'
  implementation: pandas builds a hash table from the elements of `values`
  and then tests each cell for membership.  A Python `dict` is unhashable,
  so a non-empty list of record dicts (the result of
  `to_dict(orient="records")`) raises `TypeError`; an empty list yields an
  all-`False` mask.
-/

namespace HK

/-- Cell value of a table; `none` models pandas `NaN`. -/
abbrev Val := Option String

/-- Tabular snapshot: a pandas `DataFrame`, as a list of column names plus
row-major cells.  Rows of a well-formed frame are aligned with `cols`. -/
structure DF where
  cols : List String
  rows : List (List Val)
  deriving DecidableEq

/-- Python-level failures the embedded code can raise (`TypeError` from
hashing an unhashable value, `MergeError` from `pandas.merge` with no common
columns), plus the specification's `SchemaMismatch` error, which appears in
the spec's error taxonomy but must be shown absent from the code. -/
inductive PyErr
  | typeError
  | mergeError
  | schemaMismatch
  deriving DecidableEq

/-- Value of the cell of a row at a (first occurrence of a) column name,
walking the column list and the row in lockstep; `none` when absent. -/
def getCol : List String → List Val → String → Val
  | [], _, _ => none
  | _ :: _, [], _ => none
  | c :: cs, v :: vs, t => if c = t then v else getCol cs vs t

/-- Models `df.to_dict(orient="records")`: one field-name-to-value dict per
row. -/
def to_records (df : DF) : List (List (String × Val)) :=
  df.rows.map (fun r => df.cols.zip r)

/-- Models `df.isin(values)` for a list `values` of record dicts (line 137 /
138 of `hkex_debenture_monitor.py`).  pandas hashes every element of
`values`; a `dict` is unhashable, so a non-empty record list raises
`TypeError`, while an empty one produces an all-`False` boolean mask of the
frame's shape. -/
def isinRecords (df : DF) (records : List (List (String × Val))) :
    Except PyErr (List (List Bool)) :=
  if records.isEmpty then
    .ok (df.rows.map (fun r => r.map (fun _ => false)))
  else
    .error .typeError

/-- Models `~mask` on a boolean frame. -/
def notMask (m : List (List Bool)) : List (List Bool) :=
  m.map (fun r => r.map (fun b => !b))

/-- Models `df[mask]` with a boolean DataFrame mask (`DataFrame.where`):
the shape is kept, a cell keeps its value where the mask is `True` and
becomes `NaN` where it is `False`. -/
def maskWhere (df : DF) (m : List (List Bool)) : DF :=
  { cols := df.cols,
    rows := List.zipWith
      (fun r mr => List.zipWith (fun v b => if b then v else none) r mr)
      df.rows m }

/-- Models `DataFrame.empty`: true iff one of the two axes has length 0. -/
def DF.empty (df : DF) : Bool :=
  df.rows.isEmpty || df.cols.isEmpty

/-- Line 137 of `hkex_debenture_monitor.py`:
`added = today_main[~today_main.isin(prev_main.to_dict(orient="records"))]`. -/
def added_frame (today_main prev_main : DF) : Except PyErr DF := do
  let m ← isinRecords today_main (to_records prev_main)
  pure (maskWhere today_main (notMask m))

/-- Line 138 of `hkex_debenture_monitor.py`:
`removed = prev_main[~prev_main.isin(today_main.to_dict(orient="records"))]`. -/
def removed_frame (today_main prev_main : DF) : Except PyErr DF := do
  let m ← isinRecords prev_main (to_records today_main)
  pure (maskWhere prev_main (notMask m))

/-- Value of the `_merge` indicator column added by
`merge(..., indicator=True)`. -/
inductive Tag
  | both
  | left_only
  | right_only
  deriving DecidableEq

/-- Result of `left.merge(right, indicator=True, how="outer")`: the merged
columns plus, per row, the `_merge` indicator value. -/
structure MergedDF where
  cols : List String
  rows : List (List Val × Tag)
  deriving DecidableEq

/-- Join keys of `pandas.merge` when `on` is not given: the columns common
to both frames, in left-frame order. -/
def commonCols (l r : DF) : List String :=
  l.cols.filter (fun c => r.cols.contains c)

/-- Columns contributed only by the right frame of a merge. -/
def rightOnlyCols (l r : DF) : List String :=
  r.cols.filter (fun c => !(commonCols l r).contains c)

/-- Key of a row under a list of join-key columns. -/
def keyOf (keys cols : List String) (row : List Val) : List Val :=
  keys.map (getCol cols row)

/-- Concatenation of the images of a list-valued function. -/
def concatMap (f : α → List β) : List α → List β
  | [] => []
  | a :: l => f a ++ concatMap f l

/-- Models `left.merge(right, indicator=True, how="outer")` (line 149 of
`hkex_debenture_monitor.py`): join keys default to the columns common to
both frames (`MergeError` when there are none); output columns are the left
columns followed by the right-only columns; each left row yields one output
row per key-matching right row tagged `both`, or a single row tagged
`left_only` with `NaN` in the right-only columns; unmatched right rows
follow, tagged `right_only`, with `NaN` in the left-only columns.  pandas
presents the `outer` result with the key rows reordered; none of the
properties proved below depends on the row order of the merged frame. -/
def merge (l r : DF) : Except PyErr MergedDF :=
  let keys := commonCols l r
  if keys.isEmpty then .error .mergeError else
    let rOnly := rightOnlyCols l r
    let leftPart := concatMap (fun lr =>
      match r.rows.filter
          (fun rr => decide (keyOf keys l.cols lr = keyOf keys r.cols rr)) with
      | [] => [(lr ++ rOnly.map (fun _ => (none : Val)), Tag.left_only)]
      | ms => ms.map (fun rr => (lr ++ rOnly.map (getCol r.cols rr), Tag.both)))
      l.rows
    let rightPart := (r.rows.filter (fun rr =>
        l.rows.all (fun lr =>
          decide (¬ keyOf keys l.cols lr = keyOf keys r.cols rr)))).map
      (fun rr =>
        (l.cols.map (fun c => if keys.contains c then getCol r.cols rr c else none)
            ++ rOnly.map (getCol r.cols rr),
         Tag.right_only))
    .ok { cols := l.cols ++ rOnly, rows := leftPart ++ rightPart }

/-- Line 150 of `hkex_debenture_monitor.py`:
`diff = diff[diff["_merge"] != "both"]`. -/
def filterNotBoth (m : MergedDF) : MergedDF :=
  { cols := m.cols, rows := m.rows.filter (fun rt => decide (rt.2 ≠ Tag.both)) }

/-- Models `DataFrame.empty` for a merged frame.  The merged frame always
carries its `_merge` indicator column, so emptiness is row emptiness. -/
def MergedDF.empty (m : MergedDF) : Bool :=
  m.rows.isEmpty

/-- One element of the `debenture_details` list: the fields of the detail
dict that `detect_changes` reads (`"Person"` and `"Details"`; the
`"Stock Code"` and `"Disclosure Date"` keys of today's dicts are never read
by the differ). -/
structure Detail where
  person : String
  details : DF
  deriving DecidableEq

/-- One element appended to the `changes` list: a literal string, a main
frame rendered by `to_string(index=False)`, or a merged detail-diff frame
rendered the same way. -/
inductive Entry
  | text (s : String)
  | table (df : DF)
  | mergedTable (df : MergedDF)
  deriving DecidableEq

/-- Lines 146 to 153 of `hkex_debenture_monitor.py`: for every entry of
`today_details`, find the first entry of `prev_details` with the same
`"Person"` (`next((d for d in prev_details if d["Person"] ==
today_detail["Person"]), None)`); when one exists, outer-merge the two
detail frames with indicator, keep the rows whose `_merge` is not `"both"`,
and, when that diff frame is non-empty, append the holder header and the
diff frame to the change list. -/
def detail_changes : List Detail → List Detail → Except PyErr (List Entry)
  | [], _ => .ok []
  | td :: rest, prev_details =>
    match prev_details.find? (fun d => d.person == td.person) with
    | some pd => do
      let m ← merge td.details pd.details
      let diff := filterNotBoth m
      let tail ← detail_changes rest prev_details
      pure ((if !diff.empty then
               [Entry.text ("Changes for " ++ td.person ++ ":"),
                Entry.mergedTable diff]
             else []) ++ tail)
    | none => detail_changes rest prev_details

/-- Lines 136 to 144 of `hkex_debenture_monitor.py`: when `prev_main` is not
`None`, compute the `added` and `removed` masked frames and append a header
plus the frame for each non-empty one. -/
def main_changes (today_main : DF) (prev_main : Option DF) :
    Except PyErr (List Entry) :=
  match prev_main with
  | none => .ok []
  | some pm => do
    let added ← added_frame today_main pm
    let removed ← removed_frame today_main pm
    pure ((if !added.empty then
             [Entry.text "New persons added:", Entry.table added]
           else []) ++
          (if !removed.empty then
             [Entry.text "Persons removed:", Entry.table removed]
           else []))

/-- Lines 132 to 155 of `hkex_debenture_monitor.py`:
`detect_changes(today_main, today_details, prev_main, prev_details)`.  The
main-table part runs only when `prev_main is not None`; the detail loop then
runs over `today_details`.  An exception raised by any pandas operation
propagates. -/
def detect_changes (today_main : DF) (today_details : List Detail)
    (prev_main : Option DF) (prev_details : List Detail) :
    Except PyErr (List Entry) := do
  let mainEntries ← main_changes today_main prev_main
  let detailEntries ← detail_changes today_details prev_details
  pure (mainEntries ++ detailEntries)

/-- Line 189 of `hkex_debenture_monitor.py`: the change list used when no
previous snapshot exists. -/
def initChanges : List Entry :=
  [Entry.text "No previous data available. Initialized with today's data."]

/-- Lines 185 to 191 of `hkex_debenture_monitor.py` (`__main__`): when
`prev_main is None or prev_details is None`, the change list is the
initialization sentinel; otherwise it is `detect_changes` of the four
tables. -/
def run_comparison (today_main : DF) (today_details : List Detail)
    (prev_main : Option DF) (prev_details : Option (List Detail)) :
    Except PyErr (List Entry) :=
  match prev_main, prev_details with
  | some pm, some pd => detect_changes today_main today_details (some pm) pd
  | _, _ => .ok initChanges

/-- Data determining the HTML body built by `send_email` (lines 164 to 172
of `hkex_debenture_monitor.py`): either the fixed no-change paragraph, or
the update paragraph followed by `main_table.to_html` and every detail
frame's header and `to_html`.  The strings of the `changes` list itself are
never interpolated into the body; `changes` is consulted only for
emptiness. -/
inductive EmailBody
  | noChange
  | update (main_table : DF) (debenture_details : List Detail)
  deriving DecidableEq

/-- Body construction of `send_email` (lines 164 to 172 of
`hkex_debenture_monitor.py`): `if not changes:` produce the no-change
paragraph, else the update paragraph plus the full current main and detail
tables. -/
def send_email_body (changes : List Entry) (main_table : DF)
    (debenture_details : List Detail) : EmailBody :=
  if changes.isEmpty then EmailBody.noChange
  else EmailBody.update main_table debenture_details

/-- The four arguments of `detect_changes`, bundled as the mutable Python
state the function could in principle read and write. -/
structure DifferInputs where
  today_main : DF
  today_details : List Detail
  prev_main : Option DF
  prev_details : List Detail

/-- Effect-aware rendering of a call to `detect_changes`: the call returns
its result together with the post-call state of its arguments.  The body of
the source function contains only value-producing pandas expressions — no
`inplace=True` operation, no assignment to an argument, and no I/O call —
so the embedding returns the argument state unchanged. -/
def detect_changes_exec (s : DifferInputs) :
    DifferInputs × Except PyErr (List Entry) :=
  (s, detect_changes s.today_main s.today_details s.prev_main s.prev_details)

/-- One entry of the `tickers` list of `send_test_email.py` (lines 172 to
175). -/
structure Ticker where
  hkex_sid : String
  stock_code : String
  company_name : String

/-- Failure of `requests.get(...)` followed by `raise_for_status()` in
`fetch_disclosures_via_url` (lines 54 to 55 of `send_test_email.py`). -/
inductive FetchError
  | httpError (status : Nat)
  deriving DecidableEq

/-- The ticker loop of `send_test_email.py` `__main__` (lines 189 to 202):
for each ticker, fetch its disclosure frames and store them under its stock
code.  The loop body contains no `try`/`except`, so an exception raised by
`fetch_disclosures_via_url` propagates and terminates the loop.  The first
component instruments the run with the list of stock codes for which a
fetch was actually attempted. -/
def fetch_all_subjects (fetch : String → Except FetchError (DF × DF)) :
    List Ticker → List String × Except FetchError (List (String × DF × DF))
  | [] => ([], .ok [])
  | t :: rest =>
    match fetch t.stock_code with
    | .error e => ([t.stock_code], .error e)
    | .ok dfs =>
      let res := fetch_all_subjects fetch rest
      (t.stock_code :: res.1,
       res.2.map (fun l => (t.stock_code, dfs.1, dfs.2) :: l))

/-- The ticker list of `send_test_email.py` (lines 172 to 175). -/
def tickers : List Ticker :=
  [{ hkex_sid := "972", stock_code := "488",
     company_name := "Lai+Sun+Development+Co.+Ltd." },
   { hkex_sid := "27", stock_code := "17",
     company_name := "New+World+Development+Co.+Ltd." }]

/-- A fetch environment in which the HKEX site answers the first subject
(stock code 488) with an HTTP 500 error and every other subject
successfully. -/
def fetchFail488 : String → Except FetchError (DF × DF) :=
  fun code =>
    if code = "488" then .error (.httpError 500)
    else .ok ({ cols := [], rows := [] }, { cols := [], rows := [] })

/-- First-occurrence deduplication of a detail list by its `"Person"` field:
keeps an entry only when no earlier entry has the same person. -/
def dedupByPerson (seen : List String) : List Detail → List Detail
  | [] => []
  | d :: rest =>
    if d.person ∈ seen then dedupByPerson seen rest
    else d :: dedupByPerson (d.person :: seen) rest

/-- Rows of an indicator outer merge of two frames over the same duplicate-free
column list: key equality degenerates to full-record equality, so each current
row is paired with its equal previous rows (tagged `both`) or kept alone
(tagged `left_only`), followed by the previous rows equal to no current row
(tagged `right_only`). -/
def mergedRowsSimple (lrows rrows : List (List Val)) : List (List Val × Tag) :=
  concatMap (fun lr =>
    match rrows.filter (fun rr => decide (lr = rr)) with
    | [] => [(lr, Tag.left_only)]
    | ms => ms.map (fun _ => (lr, Tag.both))) lrows
  ++ (rrows.filter (fun rr => lrows.all (fun lr => decide (¬ lr = rr)))).map
      (fun rr => (rr, Tag.right_only))

/-- Description, in the specification's own terms, of the change-list block
contributed by one holder present in both detail lists: the outer join on
full-record equality between the current and the previous detail table,
restricted to the rows present on only one side, each row tagged with its
provenance (`left_only` is current-only, `right_only` is previous-only);
preceded by the holder header, and omitted entirely when there is no delta
row. -/
def specDeltaEntries (td pd : Detail) : List Entry :=
  let deltas :=
    (td.details.rows.filter (fun x => decide (x ∉ pd.details.rows))).map
      (fun x => (x, Tag.left_only)) ++
    (pd.details.rows.filter (fun x => decide (x ∉ td.details.rows))).map
      (fun x => (x, Tag.right_only))
  if deltas.isEmpty then []
  else [Entry.text ("Changes for " ++ td.person ++ ":"),
        Entry.mergedTable { cols := td.details.cols, rows := deltas }]

/-- Column names of the scraped main table (lines 69 to 76 of
`hkex_debenture_monitor.py`). -/
def mainCols : List String :=
  ["Name", "Capacity", "Nature of Interest", "Number of Debentures",
   "Interest in Debentures", "Date of Notice"]

/-- A concrete main-table record. -/
def rowA : List Val :=
  [some "Chan Tai Man", some "Director", some "Beneficial owner",
   some "1,000,000", some "Yes", some "2025-03-01"]

/-- A second concrete main-table record. -/
def rowB : List Val :=
  [some "Wong Siu Ming", some "Substantial shareholder",
   some "Corporate interest", some "500,000", some "No", some "2025-03-02"]

/-- A one-record main table. -/
def mainA : DF := { cols := mainCols, rows := [rowA] }

/-- A two-record main table containing `rowA` unchanged plus `rowB`. -/
def mainAB : DF := { cols := mainCols, rows := [rowA, rowB] }

/-- A rowless previous main table with columns Name and Capacity, from the
specification's schema-mismatch example. -/
def prevSchema : DF := { cols := ["Name", "Capacity"], rows := [] }

/-- A rowless current main table with columns Name, Capacity and Extra, from
the specification's schema-mismatch example. -/
def todaySchema : DF := { cols := ["Name", "Capacity", "Extra"], rows := [] }

/-- The schema-mismatch previous table with one data row present. -/
def prevSchemaRow : DF :=
  { cols := ["Name", "Capacity"],
    rows := [[some "Chan Tai Man", some "Director"]] }

/-- Previous detail table of holder X from the specification's example:
a single row with value 1 in the single column a. -/
def prevDetX : Detail :=
  { person := "X", details := { cols := ["a"], rows := [[some "1"]] } }

/-- Current detail table of holder X from the specification's example:
the rows with values 1 and 2 in the single column a. -/
def todayDetX : Detail :=
  { person := "X",
    details := { cols := ["a"], rows := [[some "1"], [some "2"]] } }

/-! ## Helper lemmas -/

/-- A detail loop with an empty previous detail list finds no match for any
holder and contributes nothing. -/
theorem detail_changes_nil_prev (tds : List Detail) :
    detail_changes tds [] = .ok [] := by
  induction tds with
  | nil => rfl
  | cons td rest ih => simpa [detail_changes] using ih

/-- Finding the first detail entry of a given person commutes with
first-occurrence deduplication, for any person not among the names already
seen. -/
theorem find?_dedupByPerson (p : String) :
    ∀ (l : List Detail) (seen : List String), p ∉ seen →
      (dedupByPerson seen l).find? (fun d => d.person == p)
        = l.find? (fun d => d.person == p) := by
  intro l
  induction l with
  | nil => intro seen hp; rfl
  | cons d rest ih =>
    intro seen hp
    by_cases hmem : d.person ∈ seen
    · have hne : (d.person == p) = false :=
        beq_eq_false_iff_ne.mpr (fun hc => hp (hc ▸ hmem))
      simp [dedupByPerson, hmem, List.find?_cons, hne, ih seen hp]
    · by_cases heq : (d.person == p) = true
      · simp [dedupByPerson, hmem, List.find?_cons, heq]
      · have hp' : p ∉ d.person :: seen := by
          intro hc
          rcases List.mem_cons.mp hc with hc | hc

          · exact heq (by simp [hc])
          · exact hp hc
        simp [dedupByPerson, hmem, List.find?_cons,
          Bool.of_not_eq_true heq, ih (d.person :: seen) hp']

/-- The detail loop only ever consults the first previous entry for each
person: deduplicating the previous detail list by person first changes
nothing. -/
theorem detail_changes_dedup (tds : List Detail) :
    ∀ pds, detail_changes tds (dedupByPerson [] pds)
      = detail_changes tds pds := by
  induction tds with
  | nil => intro pds; rfl
  | cons td rest ih =>
    intro pds
    have hf := find?_dedupByPerson td.person pds []
      (by simp)
    simp only [detail_changes, hf, ih]

/-- Images of pointwise-equal list-valued functions under `concatMap`
agree. -/
theorem concatMap_congr {α β : Type} {f g : α → List β} :
    ∀ l : List α, (∀ a ∈ l, f a = g a) → concatMap f l = concatMap g l := by
  intro l
  induction l with
  | nil => intro _; rfl
  | cons a rest ih =>
    intro hfg
    simp only [concatMap, hfg a (by simp),
      ih (fun x hx => hfg x (by simp [hx]))]

/-- Pointwise-equal predicates give the same `all` value. -/
theorem all_congr_mem {α : Type} {p q : α → Bool} :
    ∀ l : List α, (∀ a ∈ l, p a = q a) → l.all p = l.all q := by
  intro l
  induction l with
  | nil => intro _; rfl
  | cons a rest ih =>
    intro hpq
    simp only [List.all_cons, hpq a (by simp),
      ih (fun x hx => hpq x (by simp [hx]))]

/-- Mapping a row's cell lookup over the row's own duplicate-free column
list gives the row back. -/
theorem map_getCol_self :
    ∀ (cols : List String) (row : List Val), cols.Nodup →
      row.length = cols.length → cols.map (getCol cols row) = row := by
  intro cols
  induction cols with
  | nil =>
    intro row _ hl
    simp [List.length_eq_zero.mp hl]
  | cons c cs ih =>
    intro row hnd hl
    cases row with
    | nil => simp at hl
    | cons v vs =>
      have hcn : c ∉ cs := (List.nodup_cons.mp hnd).1
      have htail : cs.map (getCol (c :: cs) (v :: vs))
          = cs.map (getCol cs vs) :=
        List.map_congr_left (fun c2 hc2 => by
          have hcc : ¬ c = c2 := fun hcc => hcn (hcc ▸ hc2)
          simp [getCol, hcc])
      have hvs : vs.length = cs.length := by simpa using hl
      have hhead : getCol (c :: cs) (v :: vs) c = v := by simp [getCol]
      rw [List.map_cons, hhead, htail, ih vs (List.nodup_cons.mp hnd).2 hvs]

/-- When both frames carry the same column list, the merge keys are exactly
those columns. -/
theorem commonCols_eq_left (l r : DF) (h : r.cols = l.cols) :
    commonCols l r = l.cols := by
  unfold commonCols
  rw [h]
  exact List.filter_eq_self.mpr (fun c hc => by simp [List.contains, hc])

/-- When both frames carry the same column list, the merge contributes no
right-only columns. -/
theorem rightOnlyCols_eq_nil (l r : DF) (h : r.cols = l.cols) :
    rightOnlyCols l r = [] := by
  unfold rightOnlyCols
  rw [commonCols_eq_left l r h, h]
  exact List.filter_eq_nil_iff.mpr (fun c hc => by
    simp [List.contains, hc])

/-- A conjunction of disequalities over a list decides non-membership. -/
theorem all_ne_eq_not_mem (rr : List Val) (lrows : List (List Val)) :
    (lrows.all (fun lr => decide (¬ lr = rr))) = decide (rr ∉ lrows) := by
  by_cases hmem : rr ∈ lrows
  · rw [decide_eq_false (not_not_intro hmem)]
    exact List.all_eq_false.mpr ⟨rr, hmem, by simp⟩
  · rw [decide_eq_true hmem]
    exact List.all_eq_true.mpr (fun lr hlr =>
      decide_eq_true (fun he : lr = rr => hmem (he ▸ hlr)))

/-- Rows of the left block of a same-schema merge that survive the
indicator filter: exactly the current rows equal to no previous row. -/
theorem left_part_filtered (rrows : List (List Val)) :
    ∀ lrows : List (List Val),
      (concatMap (fun lr =>
        match rrows.filter (fun rr => decide (lr = rr)) with
        | [] => [(lr, Tag.left_only)]
        | ms => ms.map (fun _ => (lr, Tag.both))) lrows).filter
          (fun rt => decide (rt.2 ≠ Tag.both))
      = (lrows.filter (fun x => decide (x ∉ rrows))).map
          (fun x => (x, Tag.left_only)) := by
  intro lrows
  induction lrows with
  | nil => rfl
  | cons lr rest ih =>
    simp only [concatMap, List.filter_append]
    split
    next hc =>
      have hmem : lr ∉ rrows := by
        intro hin
        have := List.filter_eq_nil_iff.mp hc lr hin
        simp at this
      have h2 : List.filter (fun x => decide (x ∉ rrows)) (lr :: rest)
          = lr :: List.filter (fun x => decide (x ∉ rrows)) rest := by
        simp [List.filter_cons, hmem]
      rw [ih, h2, List.map_cons]
      rfl
    next ms hc =>
      have hmem : lr ∈ rrows := by
        by_contra hnin
        exact hc (List.filter_eq_nil_iff.mpr (fun rr hrr => by
          intro hdec
          exact hnin ((of_decide_eq_true hdec) ▸ hrr)))
      have hnone : ((rrows.filter (fun rr => decide (lr = rr))).map
            (fun _ => (lr, Tag.both))).filter
            (fun rt => decide (rt.2 ≠ Tag.both)) = [] :=
        List.filter_eq_nil_iff.mpr (fun a ha => by
          rcases List.mem_map.mp ha with ⟨x, hx, rfl⟩
          simp)
      have h2 : List.filter (fun x => decide (x ∉ rrows)) (lr :: rest)
          = List.filter (fun x => decide (x ∉ rrows)) rest := by
        simp [List.filter_cons, hmem]
      rw [ih, hnone, h2, List.nil_append]

/-- Outer-merge of two frames sharing one duplicate-free non-empty column
list: the join keys are all the columns, so the merge pairs rows by
full-record equality. -/
theorem merge_same_cols (l r : DF) (h : r.cols = l.cols) (hne : l.cols ≠ [])
    (hnd : l.cols.Nodup)
    (hl : ∀ x ∈ l.rows, x.length = l.cols.length)
    (hr : ∀ x ∈ r.rows, x.length = l.cols.length) :
    merge l r
      = .ok { cols := l.cols, rows := mergedRowsSimple l.rows r.rows } := by
  have hk := commonCols_eq_left l r h
  have hro := rightOnlyCols_eq_nil l r h
  have hE : l.cols.isEmpty = false := List.isEmpty_eq_false.mpr hne
  have hkey : ∀ x : List Val, x.length = l.cols.length →
      keyOf l.cols l.cols x = x := fun x hx => by
    simpa [keyOf] using map_getCol_self l.cols x hnd hx
  simp only [merge, hk, hro, h, hE, List.map_nil, List.append_nil,
    Bool.false_eq_true, if_false]
  refine congrArg Except.ok (congrArg (MergedDF.mk l.cols) ?_)
  unfold mergedRowsSimple
  congr 1
  · refine concatMap_congr l.rows (fun lr hlr => ?_)
    have hfil : r.rows.filter (fun rr =>
          decide (keyOf l.cols l.cols lr = keyOf l.cols l.cols rr))
        = r.rows.filter (fun rr => decide (lr = rr)) :=
      List.filter_congr (fun rr hrr => by
        rw [hkey lr (hl lr hlr), hkey rr (hr rr hrr)])
    rw [hfil]
  · have hfeq : r.rows.filter (fun rr =>
          l.rows.all (fun lr =>
            decide (¬ keyOf l.cols l.cols lr = keyOf l.cols l.cols rr)))
        = r.rows.filter (fun rr =>
            l.rows.all (fun lr => decide (¬ lr = rr))) :=
      List.filter_congr (fun rr hrr => by
        rw [hkey rr (hr rr hrr)]
        exact all_congr_mem l.rows (fun lr hlr => by
          rw [hkey lr (hl lr hlr)]))
    rw [hfeq]
    refine List.map_congr_left (fun rr hrr => ?_)
    have hrmem : rr ∈ r.rows := (List.mem_filter.mp hrr).1
    have hv : l.cols.map (fun c =>
          if l.cols.contains c then getCol l.cols rr c else none)
        = l.cols.map (getCol l.cols rr) :=
      List.map_congr_left (fun c hc => by
        have hct : l.cols.contains c = true := List.elem_iff.mpr hc
        rw [hct]
        exact if_pos rfl)
    rw [hv, map_getCol_self l.cols rr hnd (hr rr hrmem)]

/-- Indicator filter of the rows of a same-schema merge: exactly the
one-sided rows, tagged with their provenance. -/
theorem mergedRowsSimple_filtered (lrows rrows : List (List Val)) :
    (mergedRowsSimple lrows rrows).filter (fun rt => decide (rt.2 ≠ Tag.both))
      = (lrows.filter (fun x => decide (x ∉ rrows))).map
          (fun x => (x, Tag.left_only))
        ++ (rrows.filter (fun x => decide (x ∉ lrows))).map
          (fun x => (x, Tag.right_only)) := by
  unfold mergedRowsSimple
  rw [List.filter_append, left_part_filtered]
  congr 1
  have hkeep : ((rrows.filter (fun rr =>
        lrows.all (fun lr => decide (¬ lr = rr)))).map
        (fun rr => (rr, Tag.right_only))).filter
        (fun rt => decide (rt.2 ≠ Tag.both))
      = (rrows.filter (fun rr =>
          lrows.all (fun lr => decide (¬ lr = rr)))).map
          (fun rr => (rr, Tag.right_only)) :=
    List.filter_eq_self.mpr (fun a ha => by
      rcases List.mem_map.mp ha with ⟨x, hx, rfl⟩
      simp)
  rw [hkeep]
  have hpred : rrows.filter (fun rr =>
        lrows.all (fun lr => decide (¬ lr = rr)))
      = rrows.filter (fun rr => decide (rr ∉ lrows)) :=
    List.filter_congr (fun rr hrr => all_ne_eq_not_mem rr lrows)
  rw [hpred]

/-- Binding a successful `Except` value is application. -/
theorem except_ok_bind {α β : Type} (a : α) (k : α → Except PyErr β) :
    (Except.ok a >>= k) = k a := rfl

/-- Binding a failed `Except` value propagates the error. -/
theorem except_error_bind {α β : Type} (e : PyErr)
    (k : α → Except PyErr β) :
    (Except.error e >>= k : Except PyErr β) = Except.error e := rfl

/-- A record list built from a table with at least one row is non-empty, so
the `isin` membership test hashes a dict and raises `TypeError`. -/
theorem isinRecords_err (df src : DF) (h : src.rows ≠ []) :
    isinRecords df (to_records src) = .error PyErr.typeError := by
  have hne : (to_records src).isEmpty = false := by
    unfold to_records
    cases hr : src.rows with
    | nil => exact absurd hr h
    | cons a l => rfl
  unfold isinRecords
  rw [hne]
  rfl

/-- With rows on either side, the main-table diff dies in the `isin` call:
line 137 raises when the previous table has a row, line 138 raises when
only the current one does. -/
theorem main_changes_rows_present (tm pm : DF)
    (h : tm.rows ≠ [] ∨ pm.rows ≠ []) :
    main_changes tm (some pm) = .error PyErr.typeError := by
  by_cases hpm : pm.rows = []
  · have htm : tm.rows ≠ [] := by
      rcases h with h | h
      · exact h
      · exact absurd hpm h
    have ha : added_frame tm pm
        = .ok (maskWhere tm (notMask
            (tm.rows.map (fun r => r.map (fun _ => false))))) := by
      unfold added_frame isinRecords to_records
      rw [hpm]
      rfl
    have hrm : removed_frame tm pm = .error PyErr.typeError := by
      unfold removed_frame
      rw [isinRecords_err pm tm htm]
      rfl
    simp only [main_changes]
    rw [ha, hrm]
    rfl
  · have ha : added_frame tm pm = .error PyErr.typeError := by
      unfold added_frame
      rw [isinRecords_err tm pm hpm]
      rfl
    simp only [main_changes]
    rw [ha]
    rfl

/-- With no rows on either side, both record lists are empty, both masked
frames are row-less, and the main-table diff contributes nothing. -/
theorem main_changes_rowless (tm pm : DF) (h1 : tm.rows = [])
    (h2 : pm.rows = []) :
    main_changes tm (some pm) = .ok [] := by
  simp [main_changes, added_frame, removed_frame, isinRecords, to_records,
    maskWhere, notMask, DF.empty, h1, h2]
  rfl

/-- Rows anywhere in the two main tables make `detect_changes` raise
`TypeError`, whatever the column sets and the detail lists. -/
theorem detect_changes_rows_present (tm pm : DF) (td pd : List Detail)
    (h : tm.rows ≠ [] ∨ pm.rows ≠ []) :
    detect_changes tm td (some pm) pd = .error PyErr.typeError := by
  simp only [detect_changes]
  rw [main_changes_rows_present tm pm h]
  rfl

/-- The merge either succeeds or raises `MergeError`; it never produces the
spec's `SchemaMismatch`. -/
theorem merge_not_schema_mismatch (l r : DF) :
    merge l r ≠ .error PyErr.schemaMismatch := by
  by_cases hk : (commonCols l r).isEmpty = true
  · simp [merge, hk]
  · simp [merge, hk]

/-- The detail loop either succeeds or propagates a `MergeError`; no branch
of it can produce the spec's `SchemaMismatch`. -/
theorem detail_changes_no_sm :
    ∀ (tds pds : List Detail),
      detail_changes tds pds ≠ .error PyErr.schemaMismatch := by
  intro tds
  induction tds with
  | nil => intro pds; simp [detail_changes]
  | cons td rest ih =>
    intro pds
    cases hf : pds.find? (fun d => d.person == td.person) with
    | none =>
      simp only [detail_changes, hf]
      exact ih pds
    | some pd =>
      simp only [detail_changes, hf]
      cases hm : merge td.details pd.details with
      | error e =>
        rw [except_error_bind]
        intro hcon
        injection hcon with h2
        exact merge_not_schema_mismatch td.details pd.details
          (by rw [hm, h2])
      | ok M =>
        simp only [except_ok_bind]
        cases hrest : detail_changes rest pds with
        | error e2 =>
          simp only [except_error_bind]
          intro hcon
          injection hcon with h2
          exact ih pds (by rw [hrest, h2])
        | ok l =>
          simp only [except_ok_bind]
          exact fun hcon => Except.noConfusion hcon

/-- Appending the detail entries to a prefix cannot produce the spec's
`SchemaMismatch` either. -/
theorem tail_not_sm (td pd : List Detail) (pre : List Entry) :
    ((detail_changes td pd) >>=
        fun detailEntries => pure (pre ++ detailEntries))
      ≠ .error PyErr.schemaMismatch := by
  cases hd : detail_changes td pd with
  | error e =>
    rw [except_error_bind]
    intro hcon
    injection hcon with h2
    exact detail_changes_no_sm td pd (by rw [hd, h2])
  | ok l =>
    rw [except_ok_bind]
    exact fun hcon => Except.noConfusion hcon

/-- No execution of `detect_changes` returns the spec's `SchemaMismatch`:
the code contains no column-set comparison, so the only failures are the
`TypeError` of the record-membership test and the `MergeError` of the
detail merge. -/
theorem detect_changes_no_sm (tm : DF) (td : List Detail)
    (pm : Option DF) (pd : List Detail) :
    detect_changes tm td pm pd ≠ .error PyErr.schemaMismatch := by
  cases pm with
  | none =>
    simp only [detect_changes, main_changes, except_ok_bind]
    exact tail_not_sm td pd []
  | some pm2 =>
    by_cases hrows : tm.rows = [] ∧ pm2.rows = []
    · obtain ⟨h1, h2⟩ := hrows
      simp only [detect_changes]
      rw [main_changes_rowless tm pm2 h1 h2]
      simp only [except_ok_bind]
      exact tail_not_sm td pd []
    · have h3 : tm.rows ≠ [] ∨ pm2.rows ≠ [] := by
        rcases not_and_or.mp hrows with h | h
        · exact Or.inl h
        · exact Or.inr h
      rw [detect_changes_rows_present tm pm2 td pd h3]
      intro hcon
      injection hcon with h2
      exact PyErr.noConfusion h2

/-- Binding followed by a pure prepend is a map. -/
theorem bind_pure_append {α : Type} (e : Except PyErr (List α))
    (pre : List α) :
    (e >>= fun tail => pure (pre ++ tail)) = e.map (fun tail => pre ++ tail) := by
  cases e <;> rfl

/-- Swapping the branches of a boolean-negation conditional. -/
theorem if_not_swap {α : Type} (b : Bool) (x y : α) :
    (if !b then x else y) = (if b then y else x) := by
  cases b <;> rfl

/-! ## Claims -/

/-- C1: comparing a snapshot against itself does not yield an empty change
list: as soon as the main table has a record, `DataFrame.isin` is handed a
non-empty list of record dicts and raises `TypeError`, so `detect_changes`
crashes instead of reporting no changes. -/
theorem self_diff_raises_type_error :
    detect_changes mainA [] (some mainA) [] = .error PyErr.typeError := by
  rfl

/-- C2: a main-table record that is field-for-field identical in the
previous and the current snapshot does not lead to a change set at all:
`detect_changes` raises `TypeError` while computing `added`, before any
added/removed/modified part exists. -/
theorem unchanged_record_raises_before_reporting :
    rowA ∈ mainA.rows ∧ rowA ∈ mainAB.rows ∧
    detect_changes mainAB [] (some mainA) [] = .error PyErr.typeError := by
  exact ⟨by decide, by decide, rfl⟩

/-- C3 counterexample: main tables whose column sets differ are diffed
without any `SchemaMismatch` error; with no data rows the comparison
silently returns an empty change list. -/
theorem schema_mismatch_never_raised_cx :
    prevSchema.cols ≠ todaySchema.cols ∧
    detect_changes todaySchema [] (some prevSchema) [] = .ok [] := by
  exact ⟨by decide, rfl⟩

/-- C3 (amended): the differ performs no column-set comparison and never
fails with `SchemaMismatch`, whatever the inputs; for main tables with
differing column sets, when neither table has a data row (and there are no
previous details) the comparison silently returns an empty change list,
and whenever either main table has a data row the comparison fails with a
`TypeError` from the record-membership hashing — whether or not the column
sets agree. -/
theorem no_schema_check_detect_changes :
    (∀ (tm : DF) (td : List Detail) (pm : Option DF) (pd : List Detail),
      detect_changes tm td pm pd ≠ .error PyErr.schemaMismatch) ∧
    (∀ (tm pm : DF) (td : List Detail),
      tm.cols ≠ pm.cols → tm.rows = [] → pm.rows = [] →
      detect_changes tm td (some pm) [] = .ok []) ∧
    (∀ (tm pm : DF) (td pd : List Detail),
      tm.rows ≠ [] ∨ pm.rows ≠ [] →
      detect_changes tm td (some pm) pd = .error PyErr.typeError) := by
  refine ⟨fun tm td pm pd => detect_changes_no_sm tm td pm pd,
    fun tm pm td hne h1 h2 => ?_,
    fun tm pm td pd h => detect_changes_rows_present tm pm td pd h⟩
  simp only [detect_changes]
  rw [main_changes_rowless tm pm h1 h2]
  simp only [except_ok_bind]
  rw [detail_changes_nil_prev td, except_ok_bind]
  rfl

/-- C3 witness: the amended statement evaluated on the specification's
schema-mismatch example — no `SchemaMismatch` and a silent empty change
list for the rowless pair, and a `TypeError` once a data row is present. -/
theorem no_schema_check_detect_changes_witness :
    detect_changes todaySchema [] (some prevSchema) []
        ≠ .error PyErr.schemaMismatch ∧
    detect_changes todaySchema [] (some prevSchema) [] = .ok [] ∧
    detect_changes todaySchema [] (some prevSchemaRow) []
        = .error PyErr.typeError :=
  ⟨no_schema_check_detect_changes.1 todaySchema [] (some prevSchema) [],
   no_schema_check_detect_changes.2.1 todaySchema prevSchema []
     (by decide) rfl rfl,
   no_schema_check_detect_changes.2.2 todaySchema prevSchemaRow [] []
     (Or.inr (by decide))⟩

/-- C4: when the previous main table or the previous details load as none,
the run produces the initialization sentinel change list, which is distinct
from the empty change list, whatever today's snapshot contains. -/
theorem no_previous_yields_initialized :
    ∀ (today_main : DF) (today_details : List Detail)
      (prev_main : Option DF) (prev_details : Option (List Detail)),
      prev_main = none ∨ prev_details = none →
      run_comparison today_main today_details prev_main prev_details
        = .ok initChanges ∧ initChanges ≠ [] := by
  intro tm td pm pd h
  refine ⟨?_, by simp [initChanges]⟩
  cases pm with
  | none => cases pd <;> rfl
  | some x =>
    cases pd with
    | none => rfl
    | some y => rcases h with h | h <;> simp at h

/-- C4 witness: the sentinel on a concrete first run. -/
theorem no_previous_yields_initialized_witness :
    run_comparison mainA [] none none = .ok initChanges ∧ initChanges ≠ [] :=
  no_previous_yields_initialized mainA [] none none (Or.inl rfl)

/-- C5: the renderer does not give the initialized sentinel its own branch:
`send_email` only tests the change list for emptiness, so the sentinel (a
non-empty list) is rendered exactly like a changes-detected change list —
with the update paragraph and the full data tables. -/
theorem initialized_rendered_as_update :
    send_email_body initChanges mainAB [] = EmailBody.update mainAB [] ∧
    send_email_body [Entry.text "New persons added:", Entry.table mainAB]
        mainAB [] = EmailBody.update mainAB [] ∧
    initChanges ≠ [Entry.text "New persons added:", Entry.table mainAB] := by
  exact ⟨rfl, rfl, by decide⟩

/-- C6: for a holder present in both detail lists (with one shared,
duplicate-free, non-empty detail schema), the change-list block contributed
for that holder is exactly the outer join on full-record equality of the
two detail tables restricted to the rows present on only one side, each
row tagged with its provenance — current-only (`left_only`) or
previous-only (`right_only`) — independent of the rest of the loop. -/
theorem detail_join_one_sided_deltas
    (td pd : Detail) (rest prev_details : List Detail)
    (hfind : prev_details.find? (fun d => d.person == td.person) = some pd)
    (hcols : pd.details.cols = td.details.cols)
    (hne : td.details.cols ≠ [])
    (hnd : td.details.cols.Nodup)
    (hlt : ∀ x ∈ td.details.rows, x.length = td.details.cols.length)
    (hlp : ∀ x ∈ pd.details.rows, x.length = td.details.cols.length) :
    detail_changes (td :: rest) prev_details
      = (detail_changes rest prev_details).map
          (fun tail => specDeltaEntries td pd ++ tail) := by
  have hm := merge_same_cols td.details pd.details hcols hne hnd hlt hlp
  have hE : (if !(filterNotBoth
        { cols := td.details.cols,
          rows := mergedRowsSimple td.details.rows pd.details.rows }).empty then
        [Entry.text ("Changes for " ++ td.person ++ ":"),
         Entry.mergedTable (filterNotBoth
           { cols := td.details.cols,
             rows := mergedRowsSimple td.details.rows pd.details.rows })]
      else []) = specDeltaEntries td pd := by
    simp only [filterNotBoth, MergedDF.empty, mergedRowsSimple_filtered,
      specDeltaEntries, if_not_swap]
  simp only [detail_changes, hfind]
  rw [hm]
  simp only [except_ok_bind, bind_pure_append]
  rw [hE]

/-- C6 witness: the specification's example — holder X, previous details
one row with value 1, current details rows with values 1 and 2 — yields
exactly one modified block for X whose single delta row is the row with
value 2 tagged current-only. -/
theorem detail_join_one_sided_deltas_witness :
    detail_changes [todayDetX] [prevDetX]
      = .ok [Entry.text "Changes for X:",
             Entry.mergedTable
               { cols := ["a"], rows := [([some "2"], Tag.left_only)] }] := by
  rw [detail_join_one_sided_deltas todayDetX prevDetX [] [prevDetX]
    rfl rfl (by decide) (by decide) (by decide) (by decide)]
  rfl

/-- C7: the added frame of one comparison direction is exactly the removed
frame of the opposite direction — line 137 and line 138 are the same
expression with the two tables swapped. -/
theorem added_removed_symmetry :
    ∀ (a b : DF), a.cols = b.cols →
      added_frame b a = removed_frame a b ∧
      removed_frame b a = added_frame a b := by
  intro a b h
  exact ⟨rfl, rfl⟩

/-- C7 witness: symmetry evaluated on two concrete snapshots with the same
column set. -/
theorem added_removed_symmetry_witness :
    added_frame mainAB mainA = removed_frame mainA mainAB ∧
    removed_frame mainAB mainA = added_frame mainA mainAB :=
  added_removed_symmetry mainA mainAB rfl

/-- C8: a call to `detect_changes` leaves its four arguments unchanged and
its result is a function of those arguments alone; the body performs no
in-place operation and no I/O. -/
theorem detect_changes_pure :
    ∀ s : DifferInputs, (detect_changes_exec s).1 = s ∧
      (detect_changes_exec s).2
        = detect_changes s.today_main s.today_details s.prev_main
            s.prev_details := by
  intro s
  exact ⟨rfl, rfl⟩

/-- C9 counterexample: with the repository's own ticker list, a fetch
failure for the first subject (stock code 488) aborts the run: the loop
result is the propagated error and the second subject (stock code 17) is
never fetched. -/
theorem fetch_failure_aborts_run_cx :
    fetch_all_subjects fetchFail488 tickers
      = (["488"], .error (FetchError.httpError 500)) ∧
    ("17" : String) ∉ (fetch_all_subjects fetchFail488 tickers).1 := by
  exact ⟨rfl, by decide⟩

/-- C9 (amended): a failure while fetching one subject aborts the whole
multi-subject run: the exception propagates out of the ticker loop, and the
subjects after the failing one are neither fetched nor compared. -/
theorem fetch_failure_aborts_remaining :
    ∀ (fetch : String → Except FetchError (DF × DF)) (t : Ticker)
      (rest : List Ticker) (e : FetchError),
      fetch t.stock_code = .error e →
      fetch_all_subjects fetch (t :: rest) = ([t.stock_code], .error e) := by
  intro f t rest e h
  simp [fetch_all_subjects, h]

/-- C9 witness: the amended statement evaluated on the repository's ticker
list with a concrete failing fetch. -/
theorem fetch_failure_aborts_remaining_witness :
    fetch_all_subjects fetchFail488 tickers
      = (["488"], .error (FetchError.httpError 500)) :=
  fetch_failure_aborts_remaining fetchFail488
    { hkex_sid := "972", stock_code := "488",
      company_name := "Lai+Sun+Development+Co.+Ltd." }
    [{ hkex_sid := "27", stock_code := "17",
       company_name := "New+World+Development+Co.+Ltd." }]
    (FetchError.httpError 500) rfl

/-- C10: only the first previous detail entry per person is ever compared
against; removing every later duplicate entry for an already-seen person
from `prev_details` leaves the result of `detect_changes` unchanged, so the
later duplicates never contribute any delta rows. -/
theorem duplicate_prev_details_ignored :
    ∀ (today_main : DF) (today_details : List Detail) (prev_main : Option DF)
      (prev_details : List Detail),
      detect_changes today_main today_details prev_main prev_details
        = detect_changes today_main today_details prev_main
            (dedupByPerson [] prev_details) := by
  intro tm tds pm pds
  simp only [detect_changes, detail_changes_dedup]

end HK
